import Mathlib

/-!
# harbor_exporter: replication, repository and scan collectors

A shallow embedding of `metrics_replications.go`, `metrics_repositories.go`
and `metrics_scan.go`.

* Channels are modelled by the list of values sent on them, oldest first.
* The goroutines of `ReplicationsCollector.Collect` are modelled by a
  small-step machine: one step is one channel operation, one wait-group
  operation or one upstream request of one goroutine, and a schedule decides
  which goroutine moves next.
* The HTTP client, `encoding/json`, `strconv` and the cache are outside the
  three files; they are taken as parameters.
* A `float64` that is decoded from JSON and copied into a metric is a finite
  number; it is modelled by a rational. No arithmetic is done on it.
* The readers of `ch` and of the up channel are outside the three files; a
  send on either channel is taken to complete.
-/

namespace Harbor

/-! ## Data model -/

/-- Bytes of a response body. -/
abbrev Body := String

/-- Go `float64`, only ever decoded, copied or set to a literal. -/
abbrev float64 := Rat

/-- Value kinds of `prometheus.ValueType`. -/
inductive ValueType where
  | CounterValue
  | GaugeValue
  | UntypedValue
  deriving DecidableEq, Repr

/-- A `prometheus.Desc` as built by `prometheus.NewDesc(BuildFQName(ns, sub, name), help,
variableLabels, nil)`; the three parts of the fully qualified name are kept apart. -/
structure Desc where
  nspace : String
  subsystem : String
  name : String
  help : String
  variableLabels : List String
  deriving DecidableEq, Repr

/-- A constant metric (a Sample): what `prometheus.MustNewConstMetric` is given. -/
structure Metric where
  desc : Desc
  valueType : ValueType
  value : float64
  labelValues : List String
  deriving DecidableEq, Repr

/-- Model of `prometheus.MustNewConstMetric(desc, valueType, value, labelValues...)`. -/
def MustNewConstMetric (desc : Desc) (valueType : ValueType) (value : float64)
    (labelValues : List String) : Metric :=
  { desc := desc, valueType := valueType, value := value, labelValues := labelValues }

/-! ## metrics_replications.go -/

/-- Fields of `ReplicationsCollector` that `Collect` reads; the client, the logger and the
up channel are part of the environment and of the machine state. -/
structure ReplicationsCollector where
  threads : Nat
  replicationUp : Desc
  replicationStatus : Desc
  replicationTasks : Desc
  deriving DecidableEq, Repr

/-- Go `NewReplicationsCollector`; `nspace` is the package constant `namespace`. -/
def NewReplicationsCollector (nspace instance_ : String) (threads : Nat) : ReplicationsCollector :=
  { threads := threads
    replicationUp :=
      { nspace := nspace, subsystem := instance_, name := "replication_up"
        help := "Was the last query of harbor replications successful."
        variableLabels := [] }
    replicationStatus :=
      { nspace := nspace, subsystem := instance_, name := "replication_status"
        help := "Get status of the last execution of this replication policy: Succeed = 1, any other status = 0."
        variableLabels := ["repl_pol_name"] }
    replicationTasks :=
      { nspace := nspace, subsystem := instance_, name := "replication_tasks"
        help := "Get number of replication tasks, with various results, in the latest execution of this replication policy."
        variableLabels := ["repl_pol_name", "result"] } }

/-- Local type `policiesMetric` of `Collect`. -/
structure policiesMetric where
  Id : float64
  Name : String
  deriving DecidableEq, Repr

/-- Local type `policiesMetrics` of `Collect`. -/
abbrev policiesMetrics := List policiesMetric

/-- Element of the local slice type `policyMetric` of `Collect`. -/
structure policyMetricItem where
  Status : String
  Failed : float64
  Succeed : float64
  In_progress : float64
  Stopped : float64
  deriving DecidableEq, Repr

/-- Local type `policyMetric` of `Collect`. -/
abbrev policyMetric := List policyMetricItem

/-- What `ReplicationsCollector.Collect` calls outside the file. -/
structure ReplEnv where
  /-- Model of `rc.client.request(path)`, which returns the body alone. -/
  request : String → Body
  /-- Model of `json.Unmarshal(body, &policiesData)`; `none` is a non-nil error. -/
  unmarshalPolicies : Body → Option policiesMetrics
  /-- Model of `json.Unmarshal(body, &data)` for a `policyMetric`; `none` is a non-nil error. -/
  unmarshalPolicy : Body → Option policyMetric
  /-- Model of `strconv.FormatFloat(x, 'f', 0, 32)`. -/
  FormatFloat : float64 → String

/-- Path of the listing request (line 70). -/
def policiesPath : String := "/replication/policies"

/-- Path of the per-policy request (lines 98 and 101). -/
def executionsPath (env : ReplEnv) (policy : policiesMetric) : String :=
  "/replication/executions?policy_id=" ++ env.FormatFloat policy.Id ++ "&page=1&page_size=1"

/-- The five sends of one round of `for i := range data` (lines 114 to 133). -/
def recordMetrics (rc : ReplicationsCollector) (policyName : String) (r : policyMetricItem) :
    List Metric :=
  let replStatus : float64 := if r.Status = "Succeed" then 1 else 0
  [ MustNewConstMetric rc.replicationStatus .GaugeValue replStatus [policyName],
    MustNewConstMetric rc.replicationTasks .GaugeValue r.Failed [policyName, "failed"],
    MustNewConstMetric rc.replicationTasks .GaugeValue r.Succeed [policyName, "succeed"],
    MustNewConstMetric rc.replicationTasks .GaugeValue r.In_progress [policyName, "in_progress"],
    MustNewConstMetric rc.replicationTasks .GaugeValue r.Stopped [policyName, "stopped"] ]

/-- The loop `for i := range data` (lines 113 to 134) run from index `i` for `n` more rounds:
the metrics it sends on `ch`, in order. -/
def rangeMetrics (rc : ReplicationsCollector) (policyName : String) (data : policyMetric) :
    Nat → Nat → List Metric
  | _, 0 => []
  | i, n + 1 =>
    match data[i]? with
    | some r => recordMetrics rc policyName r ++ rangeMetrics rc policyName data (i + 1) n
    | none => []

/-- All sends of `for i := range data` for one policy. -/
def policyMetrics (rc : ReplicationsCollector) (policyName : String) (data : policyMetric) :
    List Metric :=
  rangeMetrics rc policyName data 0 data.length

/-- The health metric `replication_up` with the given value (lines 75, 106 and 150). -/
def upMetric (rc : ReplicationsCollector) (v : float64) : Metric :=
  MustNewConstMetric rc.replicationUp .GaugeValue v []

/-- Where a worker goroutine (lines 92 to 145) stands. -/
inductive Worker where
  /-- At the `select` of line 95. -/
  | idle
  /-- Received `policy` (line 96); the request of line 101 is next. -/
  | fetching (policy : policiesMetric)
  /-- In the loop of line 113 with these sends still to do; `policygroup.Done()` follows. -/
  | emitting (pending : List Metric)
  /-- Unmarshal failed (line 104); the send of line 106 is next. -/
  | failUp
  /-- The send of line 109 is next. -/
  | failSignal
  /-- Returned at line 110: neither `policygroup.Done()` nor `threadgroup.Done()` was called. -/
  | dead
  /-- Took the `default` branch, left the loop and called `threadgroup.Done()` (line 144). -/
  | retired
  deriving DecidableEq, Repr

/-- Where the goroutine that called `Collect` stands. -/
inductive Main where
  /-- Blocked in `policygroup.Wait()` (line 148). -/
  | waitPolicy
  /-- Blocked in `threadgroup.Wait()` (line 149). -/
  | waitThread
  /-- The send of line 150 is next. -/
  | emitUp
  /-- The send of line 153 is next. -/
  | signalUp
  /-- `Collect` has returned. -/
  | returned
  deriving DecidableEq, Repr

/-- State of one call of `Collect`. -/
structure State where
  /-- Buffered channel `policyChan`, next item to be received first. -/
  policyChan : List policiesMetric
  /-- Counter of the wait group `threadgroup`. -/
  threadgroup : Int
  /-- Counter of the wait group `policygroup`. -/
  policygroup : Int
  /-- The goroutines started at line 92. -/
  workers : List Worker
  main : Main
  /-- Metrics sent on `ch`, oldest first. -/
  ch : List Metric
  /-- Values sent on `rc.upChannel`, oldest first. -/
  upChannel : List Bool
  /-- Paths given to `rc.client.request`, oldest first. -/
  requests : List String
  deriving DecidableEq, Repr

/-- One step of worker `i`. -/
def stepWorker (env : ReplEnv) (rc : ReplicationsCollector) (i : Nat) (s : State) : State :=
  match s.workers[i]? with
  | none => s
  | some .idle =>
    match s.policyChan with
    | policy :: rest =>
      { s with policyChan := rest, workers := s.workers.set i (.fetching policy) }
    | [] =>
      { s with threadgroup := s.threadgroup - 1, workers := s.workers.set i .retired }
  | some (.fetching policy) =>
    let path := executionsPath env policy
    match env.unmarshalPolicy (env.request path) with
    | some data =>
      { s with requests := s.requests ++ [path],
               workers := s.workers.set i (.emitting (policyMetrics rc policy.Name data)) }
    | none =>
      { s with requests := s.requests ++ [path], workers := s.workers.set i .failUp }
  | some (.emitting (m :: rest)) =>
    { s with ch := s.ch ++ [m], workers := s.workers.set i (.emitting rest) }
  | some (.emitting []) =>
    { s with policygroup := s.policygroup - 1, workers := s.workers.set i .idle }
  | some .failUp =>
    { s with ch := s.ch ++ [upMetric rc 0], workers := s.workers.set i .failSignal }
  | some .failSignal =>
    { s with upChannel := s.upChannel ++ [false], workers := s.workers.set i .dead }
  | some .dead => s
  | some .retired => s

/-- One step of the calling goroutine after the workers were started (lines 148 to 154). -/
def stepMain (rc : ReplicationsCollector) (s : State) : State :=
  match s.main with
  | .waitPolicy => if s.policygroup = 0 then { s with main := .waitThread } else s
  | .waitThread => if s.threadgroup = 0 then { s with main := .emitUp } else s
  | .emitUp => { s with ch := s.ch ++ [upMetric rc 1], main := .signalUp }
  | .signalUp => { s with upChannel := s.upChannel ++ [true], main := .returned }
  | .returned => s

/-- Goroutine `0` is the caller, goroutine `i + 1` is worker `i`. -/
def stepAgent (env : ReplEnv) (rc : ReplicationsCollector) (a : Nat) (s : State) : State :=
  match a with
  | 0 => stepMain rc s
  | i + 1 => stepWorker env rc i s

/-- Whether a worker can move. -/
def Worker.canStep : Worker → Bool
  | .dead => false
  | .retired => false
  | _ => true

/-- Whether goroutine `a` can move: the caller is blocked while the wait group it waits on is
not zero, and a worker that returned never moves again. -/
def enabled (s : State) (a : Nat) : Bool :=
  match a with
  | 0 =>
    match s.main with
    | .waitPolicy => decide (s.policygroup = 0)
    | .waitThread => decide (s.threadgroup = 0)
    | .emitUp => true
    | .signalUp => true
    | .returned => false
  | i + 1 =>
    match s.workers[i]? with
    | some w => w.canStep
    | none => false

/-- The goroutine that moves when the schedule names `k`: goroutine `k` if it can move,
otherwise the lowest-numbered goroutine that can; `none` if no goroutine can move. -/
def pick (s : State) (k : Nat) : Option Nat :=
  if enabled s k then some k else (List.range (s.workers.length + 1)).find? (enabled s)

/-- Run at most `fuel` steps; the schedule names the goroutine to move at each step and is
read as `0` once exhausted. -/
def runFrom (env : ReplEnv) (rc : ReplicationsCollector) : Nat → List Nat → State → State
  | 0, _, s => s
  | fuel + 1, sched, s =>
    match pick s (sched.headD 0) with
    | none => s
    | some a => runFrom env rc fuel sched.tail (stepAgent env rc a s)

/-- Number of steps a worker that holds `policy` still takes at most. -/
def itemWeight (env : ReplEnv) (rc : ReplicationsCollector) (policy : policiesMetric) : Nat :=
  match env.unmarshalPolicy (env.request (executionsPath env policy)) with
  | some data => (policyMetrics rc policy.Name data).length + 3
  | none => 3

/-- Number of steps a worker still takes at most, not counting items it will receive. -/
def Worker.weight (env : ReplEnv) (rc : ReplicationsCollector) : Worker → Nat
  | .idle => 1
  | .fetching policy => itemWeight env rc policy
  | .emitting pending => pending.length + 2
  | .failUp => 2
  | .failSignal => 1
  | .dead => 0
  | .retired => 0

/-- Number of steps the caller still takes at most. -/
def Main.weight : Main → Nat
  | .waitPolicy => 4
  | .waitThread => 3
  | .emitUp => 2
  | .signalUp => 1
  | .returned => 0

/-- Bound on the number of steps left in a state. -/
def State.weight (env : ReplEnv) (rc : ReplicationsCollector) (s : State) : Nat :=
  s.main.weight + (s.workers.map (Worker.weight env rc)).sum
    + (s.policyChan.map (fun p => itemWeight env rc p + 1)).sum

/-- State after lines 82 to 146: the queue is filled, both wait groups are armed and
`rc.threads` workers are started. -/
def startState (rc : ReplicationsCollector) (policiesData : policiesMetrics) : State :=
  { policyChan := policiesData
    threadgroup := rc.threads
    policygroup := policiesData.length
    workers := List.replicate rc.threads .idle
    main := .waitPolicy
    ch := []
    upChannel := []
    requests := [policiesPath] }

/-- Go `ReplicationsCollector.Collect`: the state in which no goroutine can move any more,
under the given schedule. -/
def ReplicationsCollector.Collect (env : ReplEnv) (rc : ReplicationsCollector)
    (sched : List Nat) : State :=
  match env.unmarshalPolicies (env.request policiesPath) with
  | none =>
    { policyChan := []
      threadgroup := 0
      policygroup := 0
      workers := []
      main := .returned
      ch := [upMetric rc 0]
      upChannel := [false]
      requests := [policiesPath] }
  | some policiesData =>
    runFrom env rc ((startState rc policiesData).weight env rc) sched (startState rc policiesData)

/-! ## metrics_repositories.go -/

/-- Go `metricInfo`: the two fields the collectors read. -/
structure metricInfo where
  Desc : Desc
  Type_ : ValueType
  deriving DecidableEq, Repr

/-- Local type `projectsMetric` of `collectRepositoriesMetric`. -/
structure projectsMetric where
  Project_id : float64
  Owner_id : float64
  Name : String
  Repo_count : float64
  Chart_count : float64
  deriving DecidableEq, Repr

/-- Element of the local slice type `repositoriesMetric`; times are kept as text and the
unexported field `labels` is never set by `json.Unmarshal`. -/
structure repositoriesMetricItem where
  Id : float64
  Name : String
  Project_id : float64
  Description : String
  Pull_count : float64
  Star_count : float64
  Tags_count : float64
  Creation_time : String
  Update_time : String
  deriving DecidableEq, Repr

/-- Element of the local slice type `repositoriesMetricV2`. -/
structure repositoriesMetricV2Item where
  Id : float64
  Name : String
  Project_id : float64
  Description : String
  Pull_count : float64
  Artifact_count : float64
  Creation_time : String
  Update_time : String
  deriving DecidableEq, Repr

/-- What `collectRepositoriesMetric` reads and calls outside the file. An error is its text. -/
structure RepoEnv where
  isV2 : Bool
  /-- The pages the upstream serves for a path, in order; an `error` entry is a failed page
  request. -/
  pages : String → List (Except String Body)
  /-- Model of `json.Unmarshal(pageBody, &pageData)` for `[]projectsMetric`. -/
  unmarshalProjects : Body → Except String (List projectsMetric)
  /-- Model of `json.Unmarshal(pageBody, &pageData)` for `repositoriesMetric`. -/
  unmarshalRepositories : Body → Except String (List repositoriesMetricItem)
  /-- Model of `json.Unmarshal(pageBody, &pageData)` for `repositoriesMetricV2`. -/
  unmarshalRepositoriesV2 : Body → Except String (List repositoriesMetricV2Item)
  /-- Model of `strconv.FormatFloat(x, 'f', 0, 32)`. -/
  FormatFloat : float64 → String
  /-- The package table `allMetrics`. -/
  allMetrics : String → metricInfo
  /-- The method `doWork`: given the per-item function and the items, the metrics that reached
  `ch` and the error it returns. -/
  doWork : (projectsMetric → List Metric × Option String) → List projectsMetric →
    List Metric × Option String

/-- Modelled from the spec: the method `requestAll`, which is not in the three files. It
hands each page of a paginated listing to the callback until no page is left; a page request
that fails, or a callback that returns an error, ends it with that error. The callback
updates the variables it closes over, here the accumulator. -/
def requestAll {σ : Type} (callback : Body → σ → Except String σ) :
    List (Except String Body) → σ → σ × Option String
  | [], acc => (acc, none)
  | .error err :: _, acc => (acc, some err)
  | .ok pageBody :: rest, acc =>
    match callback pageBody acc with
    | .error err => (acc, some err)
    | .ok acc' => requestAll callback rest acc'

/-- The callback of lines 53 to 63: append the projects of one page to `projectsData`. -/
def projectsPage (env : RepoEnv) (pageBody : Body) (projectsData : List projectsMetric) :
    Except String (List projectsMetric) :=
  match env.unmarshalProjects pageBody with
  | .error err => .error err
  | .ok pageData => .ok (projectsData ++ pageData)

/-- The callbacks of lines 73 to 82 and 103 to 112: append one page to `data`. -/
def appendPage {α : Type} (unmarshal : Body → Except String (List α)) (pageBody : Body)
    (data : List α) : Except String (List α) :=
  match unmarshal pageBody with
  | .error err => .error err
  | .ok pageData => .ok (data ++ pageData)

/-- The sends of lines 88 to 99 for one repository (v2). -/
def repoMetricsV2 (env : RepoEnv) (r : repositoriesMetricV2Item) : List Metric :=
  let repoId := env.FormatFloat r.Id
  [ MustNewConstMetric (env.allMetrics "repositories_pull_total").Desc
      (env.allMetrics "repositories_pull_total").Type_ r.Pull_count [r.Name, repoId],
    MustNewConstMetric (env.allMetrics "repositories_tags_total").Desc
      (env.allMetrics "repositories_tags_total").Type_ r.Artifact_count [r.Name, repoId] ]

/-- The sends of lines 118 to 129 for one repository (v1). -/
def repoMetricsV1 (env : RepoEnv) (r : repositoriesMetricItem) : List Metric :=
  let repoId := env.FormatFloat r.Id
  [ MustNewConstMetric (env.allMetrics "repositories_pull_total").Desc
      (env.allMetrics "repositories_pull_total").Type_ r.Pull_count [r.Name, repoId],
    MustNewConstMetric (env.allMetrics "repositories_star_total").Desc
      (env.allMetrics "repositories_star_total").Type_ r.Star_count [r.Name, repoId],
    MustNewConstMetric (env.allMetrics "repositories_tags_total").Desc
      (env.allMetrics "repositories_tags_total").Type_ r.Tags_count [r.Name, repoId] ]

/-- The closure `repoFunc` (lines 68 to 132): the metrics it sends on `ch` and its error. -/
def repoFunc (env : RepoEnv) (project : projectsMetric) : List Metric × Option String :=
  let projectId := env.FormatFloat project.Project_id
  if env.isV2 then
    match requestAll (appendPage env.unmarshalRepositoriesV2)
        (env.pages ("/projects/" ++ project.Name ++ "/repositories")) [] with
    | (_, some err) => ([], some err)
    | (data, none) => (data.flatMap (repoMetricsV2 env), none)
  else
    match requestAll (appendPage env.unmarshalRepositories)
        (env.pages ("/repositories?project_id=" ++ projectId)) [] with
    | (_, some err) => ([], some err)
    | (data, none) => (data.flatMap (repoMetricsV1 env), none)

/-- What one call of `collectRepositoriesMetric` did. -/
structure RepoRun where
  /-- The returned boolean. -/
  ok : Bool
  /-- Metrics sent on `ch`, oldest first. -/
  ch : List Metric
  /-- The item lists handed to `doWork`, one per call. -/
  doWorkCalls : List (List projectsMetric)
  deriving DecidableEq, Repr

/-- Go `HarborExporter.collectRepositoriesMetric`. -/
def collectRepositoriesMetric (env : RepoEnv) : RepoRun :=
  match requestAll (projectsPage env) (env.pages "/projects") [] with
  | (_, some _) => { ok := false, ch := [], doWorkCalls := [] }
  | (projectsData, none) =>
    let r := env.doWork (repoFunc env) projectsData
    { ok := r.2.isNone, ch := r.1, doWorkCalls := [projectsData] }

/-! ## metrics_scan.go -/

/-- Local type `scanMetric` of `ScanCollector.Collect`; the unexported field `metrics` is
never set by `json.Unmarshal`. -/
structure scanMetric where
  Total : float64
  Completed : float64
  Requester : String
  Ongoing : Bool
  deriving DecidableEq, Repr

/-- The field of `ScanCollector` that `Collect` reads besides the exporter and the cache: the
map `metrics`, a missing key giving the zero value. -/
structure ScanCollector where
  metrics : String → metricInfo

/-- What `ScanCollector.Collect` calls outside the file. -/
structure ScanEnv where
  /-- Result of `sc.cache.ReplayMetrics(ch)`: whether it reports a hit. -/
  replayHit : Bool
  /-- The metrics `sc.cache.ReplayMetrics(ch)` wrote on `ch`. -/
  replayed : List Metric
  /-- Model of `sc.exporter.request(path)`: the body and the error, `none` for nil. -/
  request : String → Body × Option String
  /-- Model of `json.Unmarshal(body, &data)` for a `scanMetric`; `none` is a non-nil error. -/
  unmarshalScan : Body → Option scanMetric
  /-- Value returned by `strconv.ParseFloat(s, 64)`, whose error is discarded (line 61). -/
  ParseFloat : String → float64

/-- What `ScanCollector.Collect` does that can be seen from outside, one event per call or
channel operation. -/
inductive ScanEvent where
  /-- The call `sc.cache.ReplayMetrics(ch)`, with the metrics it wrote on `ch`. -/
  | replay (written : List Metric)
  /-- The send `sc.exporter.scanChan <- b`. -/
  | upSend (b : Bool)
  /-- The call `sc.cache.StoreAndForwaredMetrics(ch)`. -/
  | openTee
  /-- The call `sc.exporter.request(path)`. -/
  | request (path : String)
  /-- The send `samplesCh <- m`. -/
  | teeSend (m : Metric)
  /-- A send `ch <- m` by `Collect` itself. -/
  | chSend (m : Metric)
  /-- The deferred `close(samplesCh)`. -/
  | teeClose
  /-- The deferred `wg.Wait()`. -/
  | teeWait
  deriving DecidableEq, Repr

/-- Path of the scan request (line 52). -/
def scanPath : String := "/scans/all/metrics"

/-- The deferred function of lines 40 to 43. -/
def scanDeferred : List ScanEvent := [.teeClose, .teeWait]

/-- Go `ScanCollector.Collect`: its events, oldest first. -/
def ScanCollector.Collect (env : ScanEnv) (sc : ScanCollector) : List ScanEvent :=
  if env.replayHit then
    [.replay env.replayed, .upSend true]
  else
    let body := (env.request scanPath).1
    match env.unmarshalScan body with
    | none =>
      [.replay env.replayed, .openTee, .request scanPath, .upSend false] ++ scanDeferred
    | some data =>
      let scan_requester := env.ParseFloat data.Requester
      [.replay env.replayed, .openTee, .request scanPath,
        .teeSend (MustNewConstMetric (sc.metrics "scans_requester").Desc
          (sc.metrics "scans_requester").Type_ scan_requester []),
        .teeSend (MustNewConstMetric (sc.metrics "scans_total").Desc
          (sc.metrics "scans_total").Type_ data.Total []),
        .teeSend (MustNewConstMetric (sc.metrics "scans_completed").Desc
          (sc.metrics "scans_completed").Type_ data.Completed []),
        .upSend true] ++ scanDeferred

/-- The values sent on `scanChan`, oldest first. -/
def upSignals : List ScanEvent → List Bool
  | [] => []
  | .upSend b :: rest => b :: upSignals rest
  | _ :: rest => upSignals rest

/-- The metrics sent to the caching tee, oldest first. -/
def teeSends : List ScanEvent → List Metric
  | [] => []
  | .teeSend m :: rest => m :: teeSends rest
  | _ :: rest => teeSends rest

/-- The metrics `Collect` itself sent on `ch`, oldest first. -/
def chSends : List ScanEvent → List Metric
  | [] => []
  | .chSend m :: rest => m :: chSends rest
  | _ :: rest => chSends rest

/-- The metrics that reached `ch` from the cache replay, oldest first. -/
def replayWrites : List ScanEvent → List Metric
  | [] => []
  | .replay written :: rest => written ++ replayWrites rest
  | _ :: rest => replayWrites rest

/-- The paths given to `sc.exporter.request`, oldest first. -/
def scanRequests : List ScanEvent → List String
  | [] => []
  | .request path :: rest => path :: scanRequests rest
  | _ :: rest => scanRequests rest

/-- Modelled from the spec: the upstream fetch `request`, which is not in the three files, is
`fetch(path) -> bytes` or error: a result that carries an error carries no bytes. -/
def bytesOrError (result : Body × Option String) : Bool :=
  match result with
  | (_, none) => true
  | (body, some _) => body == ""

/-! ## Bookkeeping for the proofs -/

/-- The metrics the loop of line 113 sends for a policy: those of its parsed execution
records, none if its body does not parse. -/
def itemMetrics (env : ReplEnv) (rc : ReplicationsCollector) (policy : policiesMetric) :
    List Metric :=
  match env.unmarshalPolicy (env.request (executionsPath env policy)) with
  | some data => policyMetrics rc policy.Name data
  | none => []

/-- Whether the execution body of a policy parses. -/
def parses (env : ReplEnv) (policy : policiesMetric) : Bool :=
  (env.unmarshalPolicy (env.request (executionsPath env policy))).isSome

/-- One for a worker that holds an item for which `policygroup.Done()` was not called. -/
def Worker.busy : Worker → Nat
  | .idle => 0
  | .retired => 0
  | _ => 1

/-- One for a worker that has not called `threadgroup.Done()`. -/
def Worker.alive : Worker → Nat
  | .retired => 0
  | _ => 1

/-- The metrics a worker will still send for the item it holds, if the item parses. -/
def Worker.pendingMetrics (env : ReplEnv) (rc : ReplicationsCollector) :
    Worker → Multiset Metric
  | .fetching policy => (itemMetrics env rc policy : List Metric)
  | .emitting pending => (pending : List Metric)
  | _ => 0

/-- The request a worker is about to make. -/
def Worker.pendingRequests (env : ReplEnv) : Worker → Multiset String
  | .fetching policy => {executionsPath env policy}
  | _ => 0

/-- A worker state that occurs when every item parses. -/
def Worker.clean (env : ReplEnv) : Worker → Prop
  | .idle => True
  | .fetching policy => parses env policy = true
  | .emitting _ => True
  | .retired => True
  | _ => False

/-- A worker that will never call `policygroup.Done()` for the item it holds. -/
def Worker.stuck (env : ReplEnv) : Worker → Prop
  | .fetching policy => parses env policy = false
  | .failUp => True
  | .failSignal => True
  | .dead => True
  | _ => False

/-- What holds in every state of a run on the listing `l` in which every item parses. -/
structure Good (env : ReplEnv) (rc : ReplicationsCollector) (l : policiesMetrics) (s : State) :
    Prop where
  len : s.workers.length = rc.threads
  chanParses : ∀ p ∈ s.policyChan, parses env p = true
  workersClean : ∀ w ∈ s.workers, w.clean env
  pg : s.policygroup = ((s.policyChan.length + (s.workers.map Worker.busy).sum : Nat) : Int)
  tg : s.threadgroup = (((s.workers.map Worker.alive).sum : Nat) : Int)
  retired : Worker.retired ∈ s.workers → s.policyChan = []
  late : s.main.weight ≤ 2 → ∀ w ∈ s.workers, w = Worker.retired
  metrics : ∃ body : List Metric,
    s.ch = body ++ (if s.main.weight ≤ 1 then [upMetric rc 1] else [])
      ∧ (body : Multiset Metric) + (s.workers.map (Worker.pendingMetrics env rc)).sum
          + (s.policyChan.map (fun p => ((itemMetrics env rc p : List Metric) : Multiset Metric))).sum
        = (l.map (fun p => ((itemMetrics env rc p : List Metric) : Multiset Metric))).sum
  reqs : (s.requests : Multiset String) + (s.workers.map (Worker.pendingRequests env)).sum
      + (s.policyChan.map (fun p => ({executionsPath env p} : Multiset String))).sum
    = policiesPath ::ₘ (l.map (fun p => ({executionsPath env p} : Multiset String))).sum
  up : s.upChannel = if s.main = .returned then [true] else []

/-- One for a worker that has sent `false` on the up channel. -/
def Worker.sent : Worker → Nat
  | .dead => 1
  | _ => 0

/-- What holds in every state of a run in which some listed item does not parse. -/
structure Stuck (env : ReplEnv) (rc : ReplicationsCollector) (s : State) : Prop where
  len : s.workers.length = rc.threads
  pg : s.policygroup = ((s.policyChan.length + (s.workers.map Worker.busy).sum : Nat) : Int)
  bad : (∃ p ∈ s.policyChan, parses env p = false)
    ∨ (∃ (j : Nat) (w : Worker), s.workers[j]? = some w ∧ w.stuck env)
  main : s.main = .waitPolicy
  retired : Worker.retired ∈ s.workers → s.policyChan = []
  upFalse : ∀ b ∈ s.upChannel, b = false
  upLen : s.upChannel.length = (s.workers.map Worker.sent).sum

/-! ## Concrete inputs -/

/-- Policy 1 of the examples. -/
def policyA : policiesMetric := { Id := 1, Name := "A" }

/-- Policy 2 of the examples. -/
def policyB : policiesMetric := { Id := 2, Name := "B" }

/-- Policy 3 of the examples. -/
def policyC : policiesMetric := { Id := 3, Name := "C" }

/-- The execution record every example policy has when its body parses. -/
def recordEx : policyMetricItem :=
  { Status := "Succeed", Failed := 0, Succeed := 3, In_progress := 0, Stopped := 0 }

/-- An upstream that answers the paths in `failing` with an empty body, which does not parse,
and every other path with a body that parses: the listing body to `listing`, an execution
body to the single record `recordEx`. -/
def replEnvEx (listing : policiesMetrics) (failing : List String) : ReplEnv :=
  { request := fun path => if path ∈ failing then "" else path
    unmarshalPolicies := fun body => if body = "" then none else some listing
    unmarshalPolicy := fun body => if body = "" then none else some [recordEx]
    FormatFloat := fun x => if x = 1 then "1" else if x = 2 then "2" else "3" }

/-- Path of the execution request of policy 1. -/
def pathA : String := "/replication/executions?policy_id=1&page=1&page_size=1"

/-- Path of the execution request of policy 2. -/
def pathB : String := "/replication/executions?policy_id=2&page=1&page_size=1"

/-- Path of the execution request of policy 3. -/
def pathC : String := "/replication/executions?policy_id=3&page=1&page_size=1"

/-- The collector of the examples with the given number of threads. -/
def rcEx (threads : Nat) : ReplicationsCollector := NewReplicationsCollector "harbor" "" threads

/-- A state in which worker 0 has just received policy 1. -/
def fetchingStateEx : State :=
  { startState (rcEx 1) [] with workers := [Worker.fetching policyA] }

/-- A scan collector whose three descriptors are those of `CreateScanCollector`. -/
def scanCollectorEx : ScanCollector :=
  { metrics := fun key =>
      { Desc := { nspace := "harbor", subsystem := "", name := key,
                  help := "metrics of the latest scan all process", variableLabels := [] }
        Type_ := .GaugeValue } }

/-- A cold cache and an upstream that answers the scan request with a well-formed body
together with an error. -/
def scanEnvBodyAndError : ScanEnv :=
  { replayHit := false
    replayed := []
    request := fun _ => ("total=5 completed=4 requester=7", some "unexpected status")
    unmarshalScan := fun body =>
      if body = "total=5 completed=4 requester=7" then
        some { Total := 5, Completed := 4, Requester := "7", Ongoing := false }
      else none
    ParseFloat := fun s => if s = "7" then 7 else 0 }

/-- A cold cache and an upstream whose scan request fails with an empty body. -/
def scanEnvError : ScanEnv :=
  { scanEnvBodyAndError with request := fun _ => ("", some "connection refused") }

/-- A warm cache holding one metric. -/
def scanEnvHit : ScanEnv :=
  { scanEnvBodyAndError with
    replayHit := true
    replayed := [MustNewConstMetric (scanCollectorEx.metrics "scans_total").Desc .GaugeValue 5 []] }

/-- An upstream whose project listing fails on its second page. -/
def repoEnvListingFails : RepoEnv :=
  { isV2 := true
    pages := fun path =>
      if path = "/projects" then [.ok "page1", .error "connection reset"] else [.ok "repos"]
    unmarshalProjects := fun _ =>
      .ok [{ Project_id := 1, Owner_id := 1, Name := "library", Repo_count := 1, Chart_count := 0 }]
    unmarshalRepositories := fun _ => .ok []
    unmarshalRepositoriesV2 := fun _ =>
      .ok [{ Id := 3, Name := "library/nginx", Project_id := 1, Description := "",
             Pull_count := 9, Artifact_count := 2, Creation_time := "", Update_time := "" }]
    FormatFloat := fun x => if x = 3 then "3" else "1"
    allMetrics := fun key =>
      { Desc := { nspace := "harbor", subsystem := "", name := key, help := "",
                  variableLabels := ["repo_name", "repo_id"] }
        Type_ := .GaugeValue }
    doWork := fun f items => ((items.map f).flatMap Prod.fst, none) }

/-! ## The machine stops -/

/-- Replacing one element of a list changes the sum of a function over it by the difference of
its values. -/
theorem sum_map_set {α M : Type} [AddCommMonoid M] (f : α → M) :
    ∀ (l : List α) (i : Nat) (w x : α), l[i]? = some w →
      ((l.set i x).map f).sum + f w = (l.map f).sum + f x := by
  intro l
  induction l with
  | nil => intro i w x h; simp at h
  | cons a rest ih =>
    intro i w x h
    cases i with
    | zero =>
      simp only [List.getElem?_cons_zero, Option.some.injEq] at h
      subst h
      simp only [List.set_cons_zero, List.map_cons, List.sum_cons]
      abel
    | succ j =>
      simp only [List.getElem?_cons_succ] at h
      simp only [List.set_cons_succ, List.map_cons, List.sum_cons]
      rw [add_assoc, ih j w x h, add_assoc]

/-- A position that holds an element is inside the list. -/
theorem lt_length_of_getElem? {α : Type} {l : List α} {i : Nat} {w : α}
    (h : l[i]? = some w) : i < l.length := by
  rcases Nat.lt_or_ge i l.length with hlt | hge
  · exact hlt
  · rw [List.getElem?_eq_none hge] at h; cases h

/-- An element at a position is a member. -/
theorem mem_of_getElem? {α : Type} {l : List α} {i : Nat} {w : α}
    (h : l[i]? = some w) : w ∈ l := by
  have hlt := lt_length_of_getElem? h
  rw [List.getElem?_eq_getElem hlt] at h
  cases h
  exact List.getElem_mem hlt

/-- Every step of a goroutine that can move lowers the weight of the state. -/
theorem weight_decreases (env : ReplEnv) (rc : ReplicationsCollector) (s : State) (a : Nat)
    (h : enabled s a = true) :
    (stepAgent env rc a s).weight env rc < s.weight env rc := by
  cases a with
  | zero =>
    simp only [enabled] at h
    simp only [stepAgent, stepMain]
    cases hm : s.main <;> simp only [hm, decide_eq_true_eq] at h ⊢
    · simp [h, State.weight, Main.weight, hm]
    · simp [h, State.weight, Main.weight, hm]
    · simp [State.weight, Main.weight, hm]
    · simp [State.weight, Main.weight, hm]
    · cases h
  | succ i =>
    simp only [enabled] at h
    simp only [stepAgent, stepWorker]
    cases hw : s.workers[i]? with
    | none => simp [hw] at h
    | some w =>
      simp only [hw] at h
      have hsum := fun x => sum_map_set (Worker.weight env rc) s.workers i w x hw
      cases w with
      | idle =>
        cases hc : s.policyChan with
        | nil =>
          have := hsum .retired
          simp only [Worker.weight] at this
          simp only [State.weight, hc, List.map_nil, List.sum_nil]
          omega
        | cons p rest =>
          have := hsum (.fetching p)
          simp only [Worker.weight] at this
          simp only [State.weight, hc, List.map_cons, List.sum_cons]
          omega
      | fetching p =>
        cases hp : env.unmarshalPolicy (env.request (executionsPath env p)) with
        | none =>
          have := hsum .failUp
          simp only [Worker.weight, itemWeight, hp] at this
          simp only [State.weight, hp]
          omega
        | some data =>
          have := hsum (.emitting (policyMetrics rc p.Name data))
          simp only [Worker.weight, itemWeight, hp] at this
          simp only [State.weight, hp]
          omega
      | emitting pending =>
        cases pending with
        | nil =>
          have := hsum .idle
          simp only [Worker.weight, List.length_nil] at this
          simp only [State.weight]
          omega
        | cons m rest =>
          have := hsum (.emitting rest)
          simp only [Worker.weight, List.length_cons] at this
          simp only [State.weight]
          omega
      | failUp =>
        have := hsum .failSignal
        simp only [Worker.weight] at this
        simp only [State.weight]
        omega
      | failSignal =>
        have := hsum .dead
        simp only [Worker.weight] at this
        simp only [State.weight]
        omega
      | dead => simp [Worker.canStep] at h
      | retired => simp [Worker.canStep] at h

/-- The goroutine picked by the scheduler can move. -/
theorem pick_enabled (s : State) (k a : Nat) (h : pick s k = some a) : enabled s a = true := by
  unfold pick at h
  split at h
  · cases h; assumption
  · simpa using List.find?_some h

/-- No goroutine beyond the workers exists. -/
theorem enabled_lt (s : State) (a : Nat) (h : enabled s a = true) : a < s.workers.length + 1 := by
  cases a with
  | zero => omega
  | succ i =>
    simp only [enabled] at h
    cases hw : s.workers[i]? with
    | none => simp [hw] at h
    | some w => have := lt_length_of_getElem? hw; omega

/-- When the scheduler picks nobody, nobody can move. -/
theorem pick_none (s : State) (k : Nat) (h : pick s k = none) (a : Nat) : enabled s a = false := by
  unfold pick at h
  split at h
  · cases h
  · rw [List.find?_eq_none] at h
    by_contra hne
    have hen : enabled s a = true := by simpa using hne
    exact h a (List.mem_range.2 (enabled_lt s a hen)) hen

/-- With fuel at least the weight, the run ends in a state where no goroutine can move. -/
theorem runFrom_stops (env : ReplEnv) (rc : ReplicationsCollector) :
    ∀ (fuel : Nat) (sched : List Nat) (s : State), s.weight env rc ≤ fuel →
      ∀ a, enabled (runFrom env rc fuel sched s) a = false := by
  intro fuel
  induction fuel with
  | zero =>
    intro sched s hw a
    by_contra hne
    have hen : enabled s a = true := by simpa [runFrom] using hne
    have := weight_decreases env rc s a hen
    omega
  | succ n ih =>
    intro sched s hw a
    rw [runFrom]
    cases hp : pick s (sched.headD 0) with
    | none => exact pick_none s _ hp a
    | some b =>
      have := weight_decreases env rc s b (pick_enabled s _ b hp)
      exact ih sched.tail _ (by omega) a

/-- A property kept by every step holds at the end of the run. -/
theorem runFrom_invariant (env : ReplEnv) (rc : ReplicationsCollector) (P : State → Prop)
    (hstep : ∀ s a, P s → P (stepAgent env rc a s)) :
    ∀ (fuel : Nat) (sched : List Nat) (s : State), P s → P (runFrom env rc fuel sched s) := by
  intro fuel
  induction fuel with
  | zero => intro sched s h; simpa [runFrom] using h
  | succ n ih =>
    intro sched s h
    rw [runFrom]
    cases pick s (sched.headD 0) with
    | none => exact h
    | some b => exact ih sched.tail _ (hstep s b h)

/-! ## Runs in which every item parses -/

/-- Bookkeeping of a multiset equation when one worker and the channels change. -/
theorem ms_update {α : Type} (B B' S S' R R' T fw fx : Multiset α)
    (hsum : S' + fw = S + fx) (hinv : B + S + R = T) (hdelta : B' + fx + R' = B + fw + R) :
    B' + S' + R' = T := by
  apply add_right_cancel (b := fw)
  calc B' + S' + R' + fw = B' + (S' + fw) + R' := by abel
    _ = B' + (S + fx) + R' := by rw [hsum]
    _ = S + (B' + fx + R') := by abel
    _ = S + (B + fw + R) := by rw [hdelta]
    _ = B + S + R + fw := by abel
    _ = T + fw := by rw [hinv]

/-- Moving an element from the head of one list to the end of another keeps the sum. -/
theorem coe_snoc_add {α : Type} (B rest : List α) (m : α) :
    ((B ++ [m] : List α) : Multiset α) + (rest : List α) = (B : List α) + ((m :: rest : List α)) := by
  rw [Multiset.coe_add, Multiset.coe_add]
  simp

/-- When the thread group counts nobody, every worker has retired. -/
theorem all_retired_of_alive_zero :
    ∀ l : List Worker, (l.map Worker.alive).sum = 0 → ∀ w ∈ l, w = Worker.retired := by
  intro l
  induction l with
  | nil => intro _ w hw; cases hw
  | cons a rest ih =>
    intro h w hw
    simp only [List.map_cons, List.sum_cons] at h
    have ha : a.alive = 0 := by omega
    have hr : (rest.map Worker.alive).sum = 0 := by omega
    rcases List.mem_cons.1 hw with rfl | hmem
    · cases w <;> simp [Worker.alive] at ha ⊢
    · exact ih hr w hmem

/-- Retired workers hold nothing. -/
theorem sums_of_all_retired (env : ReplEnv) (rc : ReplicationsCollector) :
    ∀ l : List Worker, (∀ w ∈ l, w = Worker.retired) →
      (l.map Worker.busy).sum = 0 ∧ (l.map Worker.alive).sum = 0
        ∧ (l.map (Worker.pendingMetrics env rc)).sum = 0
        ∧ (l.map (Worker.pendingRequests env)).sum = 0 := by
  intro l
  induction l with
  | nil => intro _; simp
  | cons a rest ih =>
    intro h
    have ha : a = Worker.retired := h a (List.mem_cons_self _ _)
    obtain ⟨h1, h2, h3, h4⟩ := ih (fun w hw => h w (List.mem_cons_of_mem _ hw))
    subst ha
    simp [Worker.busy, Worker.alive, Worker.pendingMetrics, Worker.pendingRequests, h1, h2, h3, h4]

/-- The state in which the workers are started is good when every listed item parses. -/
theorem good_start (env : ReplEnv) (rc : ReplicationsCollector) (l : policiesMetrics)
    (hp : ∀ p ∈ l, parses env p = true) : Good env rc l (startState rc l) where
  len := by simp [startState]
  chanParses := hp
  workersClean := by
    intro w hw
    rw [List.eq_of_mem_replicate hw]
    trivial
  pg := by simp [startState, Worker.busy]
  tg := by simp [startState, Worker.alive]
  retired := by
    intro h
    have := List.eq_of_mem_replicate h
    cases this
  late := by intro h; simp [startState, Main.weight] at h
  metrics := ⟨[], by simp [startState, Main.weight], by
    simp [startState, Worker.pendingMetrics]⟩
  reqs := by
    simp [startState, Worker.pendingRequests]
  up := by simp [startState]

/-- A step of the caller keeps a good state good. -/
theorem good_stepMain (env : ReplEnv) (rc : ReplicationsCollector) (l : policiesMetrics)
    (s : State) (g : Good env rc l s) : Good env rc l (stepMain rc s) := by
  obtain ⟨body, hch, hms⟩ := g.metrics
  unfold stepMain
  cases hm : s.main with
  | waitPolicy =>
    simp only
    split
    · exact
        { len := g.len, chanParses := g.chanParses, workersClean := g.workersClean, pg := g.pg
          tg := g.tg, retired := g.retired
          late := by intro h; simp [Main.weight] at h
          metrics := ⟨body, by simpa [hm, Main.weight] using hch, hms⟩
          reqs := g.reqs
          up := by simpa [hm] using g.up }
    · exact g
  | waitThread =>
    simp only
    split
    · rename_i htg
      have hall : ∀ w ∈ s.workers, w = Worker.retired := by
        apply all_retired_of_alive_zero
        have := g.tg
        omega
      exact
        { len := g.len, chanParses := g.chanParses, workersClean := g.workersClean, pg := g.pg
          tg := g.tg, retired := g.retired
          late := fun _ => hall
          metrics := ⟨body, by simpa [hm, Main.weight] using hch, hms⟩
          reqs := g.reqs
          up := by simpa [hm] using g.up }
    · exact g
  | emitUp =>
    have hall := g.late (by simp [hm, Main.weight])
    exact
      { len := g.len, chanParses := g.chanParses, workersClean := g.workersClean, pg := g.pg
        tg := g.tg, retired := g.retired
        late := fun _ => hall
        metrics := ⟨body, by
          have : s.ch = body := by simpa [hm, Main.weight] using hch
          simp [Main.weight, this], hms⟩
        reqs := g.reqs
        up := by simpa [hm] using g.up }
  | signalUp =>
    have hall := g.late (by simp [hm, Main.weight])
    exact
      { len := g.len, chanParses := g.chanParses, workersClean := g.workersClean, pg := g.pg
        tg := g.tg, retired := g.retired
        late := fun _ => hall
        metrics := ⟨body, by simpa [hm, Main.weight] using hch, hms⟩
        reqs := g.reqs
        up := by
          have : s.upChannel = [] := by simpa [hm] using g.up
          simp [this] }
  | returned => exact g

/-- A change of one worker and of the channels that respects the bookkeeping keeps a good
state good, as long as the caller is still waiting. -/
theorem good_update (env : ReplEnv) (rc : ReplicationsCollector) (l : policiesMetrics)
    (s s' : State) (g : Good env rc l s) (i : Nat) (w x : Worker)
    (hw : s.workers[i]? = some w) (hearly : ¬ s.main.weight ≤ 2)
    (hworkers : s'.workers = s.workers.set i x)
    (hmain : s'.main = s.main)
    (hup : s'.upChannel = s.upChannel)
    (hx : x.clean env)
    (hsub : ∀ p ∈ s'.policyChan, p ∈ s.policyChan)
    (hret : x = Worker.retired → s'.policyChan = [])
    (hpg : s'.policygroup + (w.busy : Int) + (s.policyChan.length : Int)
      = s.policygroup + (x.busy : Int) + (s'.policyChan.length : Int))
    (htg : s'.threadgroup + (w.alive : Int) = s.threadgroup + (x.alive : Int))
    (hmetrics : (s'.ch : Multiset Metric) + x.pendingMetrics env rc
        + (s'.policyChan.map (fun p => ((itemMetrics env rc p : List Metric) : Multiset Metric))).sum
      = (s.ch : Multiset Metric) + w.pendingMetrics env rc
        + (s.policyChan.map (fun p => ((itemMetrics env rc p : List Metric) : Multiset Metric))).sum)
    (hreqs : (s'.requests : Multiset String) + x.pendingRequests env
        + (s'.policyChan.map (fun p => ({executionsPath env p} : Multiset String))).sum
      = (s.requests : Multiset String) + w.pendingRequests env
        + (s.policyChan.map (fun p => ({executionsPath env p} : Multiset String))).sum) :
    Good env rc l s' := by
  have hbusy := sum_map_set Worker.busy s.workers i w x hw
  have halive := sum_map_set Worker.alive s.workers i w x hw
  have hpm := sum_map_set (Worker.pendingMetrics env rc) s.workers i w x hw
  have hpr := sum_map_set (Worker.pendingRequests env) s.workers i w x hw
  obtain ⟨body, hch, hms⟩ := g.metrics
  have hnl : ¬ s.main.weight ≤ 1 := by omega
  simp only [hnl, if_false, List.append_nil] at hch
  have hsubnil : s.policyChan = [] → s'.policyChan = [] := by
    intro h
    cases hc : s'.policyChan with
    | nil => rfl
    | cons p rest =>
      have := hsub p (by simp [hc])
      simp [h] at this
  refine
    { len := by rw [hworkers, List.length_set]; exact g.len
      chanParses := fun p hp => g.chanParses p (hsub p hp)
      workersClean := ?_
      pg := ?_
      tg := ?_
      retired := ?_
      late := by rw [hmain]; intro h; exact absurd h hearly
      metrics := ⟨s'.ch, by rw [hmain]; simp [hnl], ?_⟩
      reqs := ?_
      up := by rw [hup, hmain]; exact g.up }
  · intro w' hw'
    rw [hworkers] at hw'
    rcases List.mem_or_eq_of_mem_set hw' with h | h
    · exact g.workersClean w' h
    · rw [h]; exact hx
  · have := g.pg
    rw [hworkers]
    omega
  · have := g.tg
    rw [hworkers]
    omega
  · intro h
    rw [hworkers] at h
    rcases List.mem_or_eq_of_mem_set h with h | h
    · exact hsubnil (g.retired h)
    · exact hret h.symm
  · rw [hworkers]
    rw [hch] at hmetrics
    exact ms_update _ _ _ _ _ _ _ _ _ hpm hms hmetrics
  · rw [hworkers]
    exact ms_update _ _ _ _ _ _ _ _ _ hpr g.reqs hreqs

/-- A step of a worker keeps a good state good. -/
theorem good_stepWorker (env : ReplEnv) (rc : ReplicationsCollector) (l : policiesMetrics)
    (s : State) (g : Good env rc l s) (i : Nat) : Good env rc l (stepWorker env rc i s) := by
  cases hw : s.workers[i]? with
  | none =>
    have : stepWorker env rc i s = s := by simp [stepWorker, hw]
    rw [this]; exact g
  | some w =>
    by_cases hlate : s.main.weight ≤ 2
    · have hr : w = Worker.retired := g.late hlate w (mem_of_getElem? hw)
      subst hr
      have : stepWorker env rc i s = s := by simp [stepWorker, hw]
      rw [this]; exact g
    · have hclean := g.workersClean w (mem_of_getElem? hw)
      cases w with
      | idle =>
        cases hc : s.policyChan with
        | nil =>
          have hs : stepWorker env rc i s =
              { s with threadgroup := s.threadgroup - 1, workers := s.workers.set i .retired } := by
            simp [stepWorker, hw, hc]
          rw [hs]
          apply good_update env rc l s _ g i .idle .retired hw hlate
          · rfl
          · rfl
          · rfl
          · trivial
          · intro p hp; exact hp
          · intro _; exact hc
          · simp [Worker.busy]
          · simp [Worker.alive]
          · simp [Worker.pendingMetrics]
          · simp [Worker.pendingRequests]
        | cons p rest =>
          have hs : stepWorker env rc i s =
              { s with policyChan := rest, workers := s.workers.set i (.fetching p) } := by
            simp [stepWorker, hw, hc]
          rw [hs]
          apply good_update env rc l s _ g i .idle (.fetching p) hw hlate
          · rfl
          · rfl
          · rfl
          · exact g.chanParses p (by simp [hc])
          · intro q hq; simp only [hc]; exact List.mem_cons_of_mem _ hq
          · intro h; cases h
          · simp [Worker.busy, hc]; omega
          · simp [Worker.alive]
          · simp only [Worker.pendingMetrics, hc, List.map_cons, List.sum_cons]; abel
          · simp only [Worker.pendingRequests, hc, List.map_cons, List.sum_cons]; abel
      | fetching p =>
        have hp : parses env p = true := hclean
        unfold parses at hp
        cases hd : env.unmarshalPolicy (env.request (executionsPath env p)) with
        | none => simp [hd] at hp
        | some data =>
          have hs : stepWorker env rc i s =
              { s with requests := s.requests ++ [executionsPath env p],
                       workers := s.workers.set i (.emitting (policyMetrics rc p.Name data)) } := by
            simp [stepWorker, hw, hd]
          rw [hs]
          apply good_update env rc l s _ g i (.fetching p) (.emitting (policyMetrics rc p.Name data))
            hw hlate
          · rfl
          · rfl
          · rfl
          · trivial
          · intro q hq; exact hq
          · intro h; cases h
          · simp [Worker.busy]
          · simp [Worker.alive]
          · simp [Worker.pendingMetrics, itemMetrics, hd]
          · simp only [Worker.pendingRequests, ← Multiset.coe_add, ← Multiset.coe_singleton]
            abel
      | emitting pending =>
        cases pending with
        | nil =>
          have hs : stepWorker env rc i s =
              { s with policygroup := s.policygroup - 1, workers := s.workers.set i .idle } := by
            simp [stepWorker, hw]
          rw [hs]
          apply good_update env rc l s _ g i (.emitting []) .idle hw hlate
          · rfl
          · rfl
          · rfl
          · trivial
          · intro q hq; exact hq
          · intro h; cases h
          · simp [Worker.busy]
          · simp [Worker.alive]
          · simp [Worker.pendingMetrics]
          · simp [Worker.pendingRequests]
        | cons m rest =>
          have hs : stepWorker env rc i s =
              { s with ch := s.ch ++ [m], workers := s.workers.set i (.emitting rest) } := by
            simp [stepWorker, hw]
          rw [hs]
          apply good_update env rc l s _ g i (.emitting (m :: rest)) (.emitting rest)
            hw hlate
          · rfl
          · rfl
          · rfl
          · trivial
          · intro q hq; exact hq
          · intro h; cases h
          · simp [Worker.busy]
          · simp [Worker.alive]
          · simp only [Worker.pendingMetrics]
            rw [coe_snoc_add]
          · simp [Worker.pendingRequests]
      | failUp => exact absurd hclean (by simp [Worker.clean])
      | failSignal => exact absurd hclean (by simp [Worker.clean])
      | dead => exact absurd hclean (by simp [Worker.clean])
      | retired =>
        have : stepWorker env rc i s = s := by simp [stepWorker, hw]
        rw [this]; exact g

/-- Every step keeps a good state good. -/
theorem good_step (env : ReplEnv) (rc : ReplicationsCollector) (l : policiesMetrics)
    (s : State) (a : Nat) (g : Good env rc l s) : Good env rc l (stepAgent env rc a s) := by
  cases a with
  | zero => exact good_stepMain env rc l s g
  | succ i => exact good_stepWorker env rc l s g i

/-- The sum of the lists of a list, as a multiset. -/
theorem coe_flatMap {α β : Type} (f : α → List β) :
    ∀ l : List α, ((l.flatMap f : List β) : Multiset β)
      = (l.map (fun p => ((f p : List β) : Multiset β))).sum := by
  intro l
  induction l with
  | nil => simp
  | cons a rest ih => simp [List.flatMap_cons, ← Multiset.coe_add, ih]

/-- The sum of singletons, as a multiset. -/
theorem coe_map_singleton {α β : Type} (f : α → β) :
    ∀ l : List α, ((l.map f : List β) : Multiset β)
      = (l.map (fun p => ({f p} : Multiset β))).sum := by
  intro l
  induction l with
  | nil => simp
  | cons a rest ih =>
    simp only [List.map_cons, List.sum_cons, ← ih, ← Multiset.cons_coe, Multiset.singleton_add]

/-- A good state in which no goroutine can move, with at least one worker started: the caller
has returned, and the sinks hold what the claim says. -/
theorem good_final (env : ReplEnv) (rc : ReplicationsCollector) (l : policiesMetrics)
    (s : State) (g : Good env rc l s) (ht : 0 < rc.threads)
    (hstop : ∀ a, enabled s a = false) :
    s.main = .returned ∧ s.upChannel = [true]
      ∧ (∃ body : List Metric, s.ch = body ++ [upMetric rc 1]
          ∧ body.Perm (l.flatMap (itemMetrics env rc)))
      ∧ s.requests.Perm (policiesPath :: l.map (executionsPath env)) := by
  have hall : ∀ w ∈ s.workers, w = Worker.retired := by
    intro w hw
    obtain ⟨i, hi, rfl⟩ := List.getElem_of_mem hw
    have hen := hstop (i + 1)
    simp only [enabled, List.getElem?_eq_getElem hi] at hen
    have hc := g.workersClean _ (List.getElem_mem hi)
    cases hwi : s.workers[i] with
    | retired => rfl
    | dead => rw [hwi] at hc; exact absurd hc (by simp [Worker.clean])
    | _ => rw [hwi] at hen; simp [Worker.canStep] at hen
  obtain ⟨hb, ha, hpm, hpr⟩ := sums_of_all_retired env rc s.workers hall
  have hne : s.workers ≠ [] := by
    intro h
    have := g.len
    rw [h] at this
    simp at this
    omega
  obtain ⟨w0, hw0⟩ := List.exists_mem_of_ne_nil _ hne
  have hchan : s.policyChan = [] := g.retired (by rw [← hall w0 hw0]; exact hw0)
  have hpg : s.policygroup = 0 := by rw [g.pg, hchan, hb]; simp
  have htg : s.threadgroup = 0 := by rw [g.tg, ha]; simp
  have hmain : s.main = .returned := by
    have hen := hstop 0
    simp only [enabled] at hen
    cases hm : s.main <;> simp [hm, hpg, htg] at hen ⊢
  obtain ⟨body, hch, hms⟩ := g.metrics
  have hreqs := g.reqs
  rw [hpm, hchan] at hms
  rw [hpr, hchan] at hreqs
  simp only [List.map_nil, List.sum_nil, add_zero] at hms hreqs
  refine ⟨hmain, by simpa [hmain] using g.up, ⟨body, by simpa [hmain, Main.weight] using hch, ?_⟩, ?_⟩
  · rw [← coe_flatMap] at hms
    exact Multiset.coe_eq_coe.1 hms
  · rw [← coe_map_singleton, Multiset.cons_coe] at hreqs
    exact Multiset.coe_eq_coe.1 hreqs

/-! ## Runs in which some item does not parse -/

/-- One term of a sum of naturals is at most the sum. -/
theorem le_sum_of_getElem? {α : Type} (f : α → Nat) :
    ∀ (l : List α) (j : Nat) (w : α), l[j]? = some w → f w ≤ (l.map f).sum := by
  intro l
  induction l with
  | nil => intro j w h; simp at h
  | cons a rest ih =>
    intro j w h
    cases j with
    | zero =>
      simp only [List.getElem?_cons_zero, Option.some.injEq] at h
      subst h
      simp
    | succ k =>
      simp only [List.getElem?_cons_succ] at h
      have := ih k w h
      simp only [List.map_cons, List.sum_cons]
      omega

/-- A stuck worker holds an item that is never marked done. -/
theorem busy_of_stuck (env : ReplEnv) (w : Worker) (h : w.stuck env) : w.busy = 1 := by
  cases w <;> simp [Worker.stuck, Worker.busy] at h ⊢

/-- In a run with an item that does not parse, `policygroup` never reaches zero. -/
theorem Stuck.pg_pos {env : ReplEnv} {rc : ReplicationsCollector} {s : State}
    (st : Stuck env rc s) : 0 < s.policygroup := by
  have hpg := st.pg
  rcases st.bad with ⟨p, hp, _⟩ | ⟨j, w, hj, hw⟩
  · have : 0 < s.policyChan.length := List.length_pos_of_mem hp
    omega
  · have h1 := le_sum_of_getElem? Worker.busy s.workers j w hj
    have h2 := busy_of_stuck env w hw
    omega

/-- In a run with an item that does not parse, the caller cannot move. -/
theorem Stuck.main_blocked {env : ReplEnv} {rc : ReplicationsCollector} {s : State}
    (st : Stuck env rc s) : enabled s 0 = false := by
  have := st.pg_pos
  simp only [enabled, st.main, decide_eq_false_iff_not]
  omega

/-- The state in which the workers are started, when some listed item does not parse. -/
theorem stuck_start (env : ReplEnv) (rc : ReplicationsCollector) (l : policiesMetrics)
    (hbad : ∃ p ∈ l, parses env p = false) : Stuck env rc (startState rc l) where
  len := by simp [startState]
  pg := by simp [startState, Worker.busy]
  bad := Or.inl hbad
  main := rfl
  retired := by
    intro h
    have := List.eq_of_mem_replicate h
    cases this
  upFalse := by intro b hb; simp [startState] at hb
  upLen := by simp [startState, Worker.sent]

/-- A change of one worker and of the channels that respects the bookkeeping keeps the
invariant of a run with an item that does not parse. -/
theorem stuck_update (env : ReplEnv) (rc : ReplicationsCollector)
    (s s' : State) (st : Stuck env rc s) (i : Nat) (w x : Worker)
    (hw : s.workers[i]? = some w)
    (hworkers : s'.workers = s.workers.set i x)
    (hmain : s'.main = s.main)
    (hchan : ∀ p ∈ s.policyChan, p ∈ s'.policyChan ∨ x = Worker.fetching p)
    (hsub : s.policyChan = [] → s'.policyChan = [])
    (hret : x = Worker.retired → s'.policyChan = [])
    (hstuck : w.stuck env → x.stuck env)
    (hpg : s'.policygroup + (w.busy : Int) + (s.policyChan.length : Int)
      = s.policygroup + (x.busy : Int) + (s'.policyChan.length : Int))
    (hupFalse : ∀ b ∈ s'.upChannel, b ∈ s.upChannel ∨ b = false)
    (hupLen : s'.upChannel.length + w.sent = s.upChannel.length + x.sent) :
    Stuck env rc s' := by
  have hbusy := sum_map_set Worker.busy s.workers i w x hw
  have hsent := sum_map_set Worker.sent s.workers i w x hw
  have hlt := lt_length_of_getElem? hw
  refine
    { len := by rw [hworkers, List.length_set]; exact st.len
      pg := by have := st.pg; rw [hworkers]; omega
      bad := ?_
      main := by rw [hmain]; exact st.main
      retired := ?_
      upFalse := ?_
      upLen := by have := st.upLen; rw [hworkers]; omega }
  · rcases st.bad with ⟨p, hp, hpb⟩ | ⟨j, w', hj, hw'⟩
    · rcases hchan p hp with h | h
      · exact Or.inl ⟨p, h, hpb⟩
      · refine Or.inr ⟨i, x, ?_, ?_⟩
        · rw [hworkers]; simp [hlt]
        · rw [h]; exact hpb
    · by_cases hji : j = i
      · subst hji
        rw [hw] at hj
        cases hj
        refine Or.inr ⟨j, x, ?_, hstuck hw'⟩
        rw [hworkers]; simp [hlt]
      · refine Or.inr ⟨j, w', ?_, hw'⟩
        rw [hworkers, List.getElem?_set_ne (Ne.symm hji)]
        exact hj
  · intro h
    rw [hworkers] at h
    rcases List.mem_or_eq_of_mem_set h with h | h
    · exact hsub (st.retired h)
    · exact hret h.symm
  · intro b hb
    rcases hupFalse b hb with h | h
    · exact st.upFalse b h
    · exact h

/-- A step of a worker keeps the invariant. -/
theorem stuck_stepWorker (env : ReplEnv) (rc : ReplicationsCollector)
    (s : State) (st : Stuck env rc s) (i : Nat) : Stuck env rc (stepWorker env rc i s) := by
  cases hw : s.workers[i]? with
  | none =>
    have : stepWorker env rc i s = s := by simp [stepWorker, hw]
    rw [this]; exact st
  | some w =>
    cases w with
    | idle =>
      cases hc : s.policyChan with
      | nil =>
        have hs : stepWorker env rc i s =
            { s with threadgroup := s.threadgroup - 1, workers := s.workers.set i .retired } := by
          simp [stepWorker, hw, hc]
        rw [hs]
        apply stuck_update env rc s _ st i .idle .retired hw
        · rfl
        · rfl
        · intro p hp; exact Or.inl hp
        · intro h; exact h
        · intro _; exact hc
        · intro h; exact absurd h (by simp [Worker.stuck])
        · simp [Worker.busy]
        · intro b hb; exact Or.inl hb
        · simp [Worker.sent]
      | cons p rest =>
        have hs : stepWorker env rc i s =
            { s with policyChan := rest, workers := s.workers.set i (.fetching p) } := by
          simp [stepWorker, hw, hc]
        rw [hs]
        apply stuck_update env rc s _ st i .idle (.fetching p) hw
        · rfl
        · rfl
        · intro q hq
          rw [hc] at hq
          rcases List.mem_cons.1 hq with h | h
          · exact Or.inr (by rw [h])
          · exact Or.inl h
        · intro h; rw [hc] at h; cases h
        · intro h; cases h
        · intro h; exact absurd h (by simp [Worker.stuck])
        · simp [Worker.busy, hc]; omega
        · intro b hb; exact Or.inl hb
        · simp [Worker.sent]
    | fetching p =>
      cases hd : env.unmarshalPolicy (env.request (executionsPath env p)) with
      | none =>
        have hs : stepWorker env rc i s =
            { s with requests := s.requests ++ [executionsPath env p],
                     workers := s.workers.set i .failUp } := by
          simp [stepWorker, hw, hd]
        rw [hs]
        apply stuck_update env rc s _ st i (.fetching p) .failUp hw
        · rfl
        · rfl
        · intro q hq; exact Or.inl hq
        · intro h; exact h
        · intro h; cases h
        · intro _; trivial
        · simp [Worker.busy]
        · intro b hb; exact Or.inl hb
        · simp [Worker.sent]
      | some data =>
        have hs : stepWorker env rc i s =
            { s with requests := s.requests ++ [executionsPath env p],
                     workers := s.workers.set i (.emitting (policyMetrics rc p.Name data)) } := by
          simp [stepWorker, hw, hd]
        rw [hs]
        apply stuck_update env rc s _ st i (.fetching p) (.emitting (policyMetrics rc p.Name data)) hw
        · rfl
        · rfl
        · intro q hq; exact Or.inl hq
        · intro h; exact h
        · intro h; cases h
        · intro h; simp [Worker.stuck, parses, hd] at h
        · simp [Worker.busy]
        · intro b hb; exact Or.inl hb
        · simp [Worker.sent]
    | emitting pending =>
      cases pending with
      | nil =>
        have hs : stepWorker env rc i s =
            { s with policygroup := s.policygroup - 1, workers := s.workers.set i .idle } := by
          simp [stepWorker, hw]
        rw [hs]
        apply stuck_update env rc s _ st i (.emitting []) .idle hw
        · rfl
        · rfl
        · intro q hq; exact Or.inl hq
        · intro h; exact h
        · intro h; cases h
        · intro h; exact absurd h (by simp [Worker.stuck])
        · simp [Worker.busy]
        · intro b hb; exact Or.inl hb
        · simp [Worker.sent]
      | cons m rest =>
        have hs : stepWorker env rc i s =
            { s with ch := s.ch ++ [m], workers := s.workers.set i (.emitting rest) } := by
          simp [stepWorker, hw]
        rw [hs]
        apply stuck_update env rc s _ st i (.emitting (m :: rest)) (.emitting rest) hw
        · rfl
        · rfl
        · intro q hq; exact Or.inl hq
        · intro h; exact h
        · intro h; cases h
        · intro h; exact absurd h (by simp [Worker.stuck])
        · simp [Worker.busy]
        · intro b hb; exact Or.inl hb
        · simp [Worker.sent]
    | failUp =>
      have hs : stepWorker env rc i s =
          { s with ch := s.ch ++ [upMetric rc 0], workers := s.workers.set i .failSignal } := by
        simp [stepWorker, hw]
      rw [hs]
      apply stuck_update env rc s _ st i .failUp .failSignal hw
      · rfl
      · rfl
      · intro q hq; exact Or.inl hq
      · intro h; exact h
      · intro h; cases h
      · intro _; trivial
      · simp [Worker.busy]
      · intro b hb; exact Or.inl hb
      · simp [Worker.sent]
    | failSignal =>
      have hs : stepWorker env rc i s =
          { s with upChannel := s.upChannel ++ [false], workers := s.workers.set i .dead } := by
        simp [stepWorker, hw]
      rw [hs]
      apply stuck_update env rc s _ st i .failSignal .dead hw
      · rfl
      · rfl
      · intro q hq; exact Or.inl hq
      · intro h; exact h
      · intro h; cases h
      · intro _; trivial
      · simp [Worker.busy]
      · intro b hb
        simp only [List.mem_append, List.mem_singleton] at hb
        exact hb
      · simp [Worker.sent]
    | dead =>
      have : stepWorker env rc i s = s := by simp [stepWorker, hw]
      rw [this]; exact st
    | retired =>
      have : stepWorker env rc i s = s := by simp [stepWorker, hw]
      rw [this]; exact st

/-- Every step keeps the invariant; the caller does not move at all. -/
theorem stuck_step (env : ReplEnv) (rc : ReplicationsCollector)
    (s : State) (a : Nat) (st : Stuck env rc s) : Stuck env rc (stepAgent env rc a s) := by
  cases a with
  | zero =>
    have hpos := st.pg_pos
    have : stepMain rc s = s := by
      simp only [stepMain, st.main]
      rw [if_neg (by omega)]
    simp only [stepAgent, this]
    exact st
  | succ i => exact stuck_stepWorker env rc s st i

/-- At the end of a run in which some item does not parse, with at least one worker started:
the caller is still blocked in `policygroup.Wait()`, whose counter is positive, and the up
channel holds `false` once per worker that met such an item, at least once. -/
theorem stuck_final (env : ReplEnv) (rc : ReplicationsCollector) (s : State)
    (st : Stuck env rc s) (ht : 0 < rc.threads) (hstop : ∀ a, enabled s a = false) :
    s.main = .waitPolicy ∧ 0 < s.policygroup
      ∧ ∃ k, 0 < k ∧ s.upChannel = List.replicate k false := by
  refine ⟨st.main, st.pg_pos, s.upChannel.length, ?_, List.eq_replicate_iff.2 ⟨rfl, st.upFalse⟩⟩
  have hall : ∀ w ∈ s.workers, w = Worker.dead ∨ w = Worker.retired := by
    intro w hw
    obtain ⟨i, hi, rfl⟩ := List.getElem_of_mem hw
    have hen := hstop (i + 1)
    simp only [enabled, List.getElem?_eq_getElem hi] at hen
    cases hwi : s.workers[i] <;> rw [hwi] at hen <;> simp [Worker.canStep] at hen ⊢
  have hdead : ∃ j : Nat, s.workers[j]? = some Worker.dead := by
    rcases st.bad with ⟨p, hp, _⟩ | ⟨j, w, hj, hw⟩
    · have hne : s.workers ≠ [] := by
        intro h
        have := st.len
        rw [h] at this
        simp at this
        omega
      obtain ⟨w0, hw0⟩ := List.exists_mem_of_ne_nil _ hne
      obtain ⟨j, hj, hjw⟩ := List.getElem_of_mem hw0
      rcases hall w0 hw0 with h | h
      · exact ⟨j, by rw [List.getElem?_eq_getElem hj, hjw, h]⟩
      · have := st.retired (by rw [← h]; exact hw0)
        rw [this] at hp
        cases hp
    · rcases hall w (mem_of_getElem? hj) with h | h
      · exact ⟨j, by rw [hj, h]⟩
      · rw [h] at hw; exact absurd hw (by simp [Worker.stuck])
  obtain ⟨j, hj⟩ := hdead
  have := le_sum_of_getElem? Worker.sent s.workers j _ hj
  rw [st.upLen]
  simpa [Worker.sent] using this

/-- With a single worker and the caller blocked, the schedule has no choice. -/
theorem pick_single (s : State) (hlen : s.workers.length = 1) (hm : enabled s 0 = false)
    (k : Nat) : pick s k = pick s 0 := by
  unfold pick
  rw [hm]
  by_cases hk : enabled s k = true
  · have hlt := enabled_lt s k hk
    have hk1 : k = 1 := by
      rcases Nat.eq_zero_or_pos k with h | h
      · rw [h, hm] at hk; cases hk
      · omega
    subst hk1
    simp [hk, hlen, List.range_succ, hm]
  · simp [hk]

/-- With a single worker, a run with an item that does not parse is the same under every
schedule. -/
theorem runFrom_single (env : ReplEnv) (rc : ReplicationsCollector) (h1 : rc.threads = 1) :
    ∀ (fuel : Nat) (sched : List Nat) (s : State), Stuck env rc s →
      runFrom env rc fuel sched s = runFrom env rc fuel [] s := by
  intro fuel
  induction fuel with
  | zero => intro sched s _; simp [runFrom]
  | succ n ih =>
    intro sched s st
    have hlen : s.workers.length = 1 := by rw [st.len, h1]
    rw [runFrom, runFrom, pick_single s hlen st.main_blocked (sched.headD 0),
      pick_single s hlen st.main_blocked (([] : List Nat).headD 0)]
    cases hp : pick s 0 with
    | none => rfl
    | some a =>
      simp only
      rw [ih sched.tail _ (stuck_step env rc s a st), ih ([] : List Nat).tail _ (stuck_step env rc s a st)]

/-! ## Per-policy metrics -/

/-- The loop over `data` from index `i` sends the metrics of the records from `i` on. -/
theorem rangeMetrics_eq_drop (rc : ReplicationsCollector) (policyName : String)
    (data : policyMetric) (n i : Nat) (h : i + n = data.length) :
    rangeMetrics rc policyName data i n = (data.drop i).flatMap (recordMetrics rc policyName) := by
  induction n generalizing i with
  | zero =>
    have hi : data.length ≤ i := by omega
    simp [rangeMetrics, List.drop_eq_nil_of_le hi]
  | succ n ih =>
    have hi : i < data.length := by omega
    rw [rangeMetrics, List.getElem?_eq_getElem hi, ih (i + 1) (by omega)]
    conv_rhs => rw [List.drop_eq_getElem_cons hi, List.flatMap_cons]

/-- The loop over `data` sends the metrics of every record, in list order. -/
theorem policyMetrics_eq_flatMap (rc : ReplicationsCollector) (policyName : String)
    (data : policyMetric) :
    policyMetrics rc policyName data = data.flatMap (recordMetrics rc policyName) := by
  simpa using rangeMetrics_eq_drop rc policyName data data.length 0 (by simp)

/-- Five metrics are sent per record. -/
theorem policyMetrics_length (rc : ReplicationsCollector) (policyName : String)
    (data : policyMetric) : (policyMetrics rc policyName data).length = 5 * data.length := by
  rw [policyMetrics_eq_flatMap]
  induction data with
  | nil => simp
  | cons r rest ih =>
    rw [List.flatMap_cons, List.length_append, ih]
    simp only [recordMetrics, List.length_cons, List.length_nil]
    omega

/-- A worker that is sending the metrics of a policy sends them in their order: after as many
of its steps as there are metrics left, `ch` has grown by exactly these. -/
theorem emitting_steps (env : ReplEnv) (rc : ReplicationsCollector) (i : Nat) :
    ∀ (pending : List Metric) (s : State), s.workers[i]? = some (.emitting pending) →
      ((stepWorker env rc i)^[pending.length] s).ch = s.ch ++ pending := by
  intro pending
  induction pending with
  | nil => intro s _; simp
  | cons m rest ih =>
    intro s hs
    have hlt : i < s.workers.length := by
      rcases Nat.lt_or_ge i s.workers.length with h | h
      · exact h
      · rw [List.getElem?_eq_none h] at hs; cases hs
    have hstep : stepWorker env rc i s =
        { s with ch := s.ch ++ [m], workers := s.workers.set i (.emitting rest) } := by
      simp [stepWorker, hs]
    rw [List.length_cons, Function.iterate_succ_apply, hstep, ih]
    · simp
    · simp [hlt]

/-- C9: for a collector built by `NewReplicationsCollector`, the loop over the parsed
execution records of a policy sends, for each record in list order, five gauges: first
`replication_status` labelled with the policy name, `1` if the status is `Succeed` and `0`
otherwise, then `replication_tasks` with the failed, succeeded, in-progress and stopped
counts, labelled with the policy name and `failed`, `succeed`, `in_progress`, `stopped`. A
worker that has received the policy and steps alone sends exactly these on `ch`, in this
order, after its request. -/
theorem policy_metrics_fixed_order (env : ReplEnv) (nspace instance_ : String) (threads : Nat)
    (policy : policiesMetric) (data : policyMetric) (i : Nat) (s : State)
    (hw : s.workers[i]? = some (.fetching policy))
    (hp : env.unmarshalPolicy (env.request (executionsPath env policy)) = some data) :
    policyMetrics (NewReplicationsCollector nspace instance_ threads) policy.Name data =
        data.flatMap (fun r =>
          [ { desc := { nspace := nspace, subsystem := instance_, name := "replication_status"
                        help := "Get status of the last execution of this replication policy: Succeed = 1, any other status = 0."
                        variableLabels := ["repl_pol_name"] }
              valueType := .GaugeValue
              value := if r.Status = "Succeed" then 1 else 0
              labelValues := [policy.Name] },
            { desc := { nspace := nspace, subsystem := instance_, name := "replication_tasks"
                        help := "Get number of replication tasks, with various results, in the latest execution of this replication policy."
                        variableLabels := ["repl_pol_name", "result"] }
              valueType := .GaugeValue
              value := r.Failed
              labelValues := [policy.Name, "failed"] },
            { desc := { nspace := nspace, subsystem := instance_, name := "replication_tasks"
                        help := "Get number of replication tasks, with various results, in the latest execution of this replication policy."
                        variableLabels := ["repl_pol_name", "result"] }
              valueType := .GaugeValue
              value := r.Succeed
              labelValues := [policy.Name, "succeed"] },
            { desc := { nspace := nspace, subsystem := instance_, name := "replication_tasks"
                        help := "Get number of replication tasks, with various results, in the latest execution of this replication policy."
                        variableLabels := ["repl_pol_name", "result"] }
              valueType := .GaugeValue
              value := r.In_progress
              labelValues := [policy.Name, "in_progress"] },
            { desc := { nspace := nspace, subsystem := instance_, name := "replication_tasks"
                        help := "Get number of replication tasks, with various results, in the latest execution of this replication policy."
                        variableLabels := ["repl_pol_name", "result"] }
              valueType := .GaugeValue
              value := r.Stopped
              labelValues := [policy.Name, "stopped"] } ])
      ∧ (policyMetrics (NewReplicationsCollector nspace instance_ threads) policy.Name
            data).length = 5 * data.length
      ∧ ((stepWorker env (NewReplicationsCollector nspace instance_ threads) i)^[5 * data.length + 1]
            s).ch =
          s.ch ++ policyMetrics (NewReplicationsCollector nspace instance_ threads) policy.Name
            data := by
  have hlt : i < s.workers.length := by
    rcases Nat.lt_or_ge i s.workers.length with h | h
    · exact h
    · rw [List.getElem?_eq_none h] at hw; cases hw
  have hlen : (policyMetrics (NewReplicationsCollector nspace instance_ threads) policy.Name
      data).length = 5 * data.length := policyMetrics_length _ _ _
  refine ⟨?_, hlen, ?_⟩
  · rw [policyMetrics_eq_flatMap]
    rfl
  · rw [Function.iterate_succ_apply, ← hlen]
    have hstep : stepWorker env (NewReplicationsCollector nspace instance_ threads) i s =
        { s with requests := s.requests ++ [executionsPath env policy],
                 workers := s.workers.set i (.emitting
                   (policyMetrics (NewReplicationsCollector nspace instance_ threads)
                     policy.Name data)) } := by
      simp [stepWorker, hw, hp]
    rw [hstep, emitting_steps]
    simp [hlt]

/-! ## The collection run as a whole -/

/-- The run of `Collect` ends in a state in which no goroutine can move. -/
theorem collect_stops (env : ReplEnv) (rc : ReplicationsCollector) (sched : List Nat) :
    ∀ a, enabled (rc.Collect env sched) a = false := by
  intro a
  unfold ReplicationsCollector.Collect
  cases env.unmarshalPolicies (env.request policiesPath) with
  | none => cases a <;> simp [enabled]
  | some l => exact runFrom_stops env rc _ sched _ (le_refl _) a

/-- Whenever the body of some listed item does not parse, the caller of `Collect` stays
blocked in `policygroup.Wait()` under every schedule, and only `false` is sent on the up
channel, once per worker that met such an item. -/
theorem collect_blocks (env : ReplEnv) (rc : ReplicationsCollector) (sched : List Nat)
    (l : policiesMetrics) (hl : env.unmarshalPolicies (env.request policiesPath) = some l)
    (hbad : ∃ p ∈ l, parses env p = false) (ht : 0 < rc.threads) :
    (rc.Collect env sched).main = .waitPolicy ∧ 0 < (rc.Collect env sched).policygroup
      ∧ ∃ k, 0 < k ∧ (rc.Collect env sched).upChannel = List.replicate k false := by
  have hstop := collect_stops env rc sched
  unfold ReplicationsCollector.Collect at hstop ⊢
  simp only [hl] at hstop ⊢
  exact stuck_final env rc _
    (runFrom_invariant env rc (Stuck env rc) (fun s a st => stuck_step env rc s a st) _ sched _
      (stuck_start env rc l hbad)) ht hstop

/-- C1 fails on the code: one worker, the listing `[A, B]`, the body of `A` does not parse and
the body of `B` does. Under every schedule the worker returns after `A`: `B` stays in the
queue, none of its metrics reaches `ch`, and no request is made for it. -/
theorem single_worker_drops_items_after_failure (sched : List Nat) :
    (rcEx 1).Collect (replEnvEx [policyA, policyB] [pathA]) sched =
        { policyChan := [policyB]
          threadgroup := 1
          policygroup := 2
          workers := [Worker.dead]
          main := Main.waitPolicy
          ch := [upMetric (rcEx 1) 0]
          upChannel := [false]
          requests := [policiesPath, pathA] }
      ∧ itemMetrics (replEnvEx [policyA, policyB] [pathA]) (rcEx 1) policyB
          = recordMetrics (rcEx 1) "B" recordEx
      ∧ ∀ m ∈ itemMetrics (replEnvEx [policyA, policyB] [pathA]) (rcEx 1) policyB,
          m ∉ ((rcEx 1).Collect (replEnvEx [policyA, policyB] [pathA]) sched).ch := by
  have hl : (replEnvEx [policyA, policyB] [pathA]).unmarshalPolicies
      ((replEnvEx [policyA, policyB] [pathA]).request policiesPath) = some [policyA, policyB] := by
    decide
  have hrun : (rcEx 1).Collect (replEnvEx [policyA, policyB] [pathA]) sched
      = (rcEx 1).Collect (replEnvEx [policyA, policyB] [pathA]) [] := by
    unfold ReplicationsCollector.Collect
    simp only [hl]
    exact runFrom_single _ _ rfl _ sched _
      (stuck_start _ _ _ ⟨policyA, by simp, by decide⟩)
  rw [hrun]
  decide

/-- C2 fails on the code: two workers, the listing `[A, B]`, the body of `A` does not parse
and the body of `B` does. Under every schedule the run ends with the caller blocked in
`policygroup.Wait()`, the counter still positive and no goroutine able to move. -/
theorem collect_never_returns_after_failure (sched : List Nat) :
    ((rcEx 2).Collect (replEnvEx [policyA, policyB] [pathA]) sched).main = Main.waitPolicy
      ∧ 0 < ((rcEx 2).Collect (replEnvEx [policyA, policyB] [pathA]) sched).policygroup
      ∧ ∀ a, enabled ((rcEx 2).Collect (replEnvEx [policyA, policyB] [pathA]) sched) a = false := by
  have h := collect_blocks (replEnvEx [policyA, policyB] [pathA]) (rcEx 2) sched
    [policyA, policyB] (by decide) ⟨policyA, by simp, by decide⟩ (by decide)
  exact ⟨h.1, h.2.1, collect_stops _ _ _⟩

/-- C3 fails on the code: two workers, the listing `[A, B, C]`, the bodies of `A` and `B` do
not parse. When worker 0 receives `A` and worker 1 receives `B`, both return, and `C` is
never requested. -/
theorem failed_workers_skip_items :
    ((rcEx 2).Collect (replEnvEx [policyA, policyB, policyC] [pathA, pathB]) [1, 2]).requests
        = [policiesPath, pathA, pathB]
      ∧ executionsPath (replEnvEx [policyA, policyB, policyC] [pathA, pathB]) policyC = pathC
      ∧ pathC ∉
          ((rcEx 2).Collect (replEnvEx [policyA, policyB, policyC] [pathA, pathB]) [1, 2]).requests
      ∧ ((rcEx 2).Collect (replEnvEx [policyA, policyB, policyC] [pathA, pathB]) [1, 2]).policyChan
        = [policyC]
      ∧ ((rcEx 2).Collect (replEnvEx [policyA, policyB, policyC] [pathA, pathB]) [1, 2]).workers
        = [Worker.dead, Worker.dead] := by
  decide

/-- C4 fails on the code: two workers, the listing `[A, B]`, neither body parses. When worker
0 receives `A` and worker 1 receives `B`, each sends `false`: two values reach the up
channel. -/
theorem two_failures_send_two_signals :
    ((rcEx 2).Collect (replEnvEx [policyA, policyB] [pathA, pathB]) [1, 2]).upChannel
        = [false, false]
      ∧ ((rcEx 2).Collect (replEnvEx [policyA, policyB] [pathA, pathB]) [1, 2]).ch
        = [upMetric (rcEx 2) 0, upMetric (rcEx 2) 0] := by
  decide

/-- C5: when the listing does not parse, `ReplicationsCollector.Collect` returns at once with
the single metric `replication_up = 0` on `ch` and the single value `false` on the up
channel, with no worker started and no request but the listing; and when the project listing
ends with an error, `collectRepositoriesMetric` returns `false`, sends nothing and does not
call `doWork`. -/
theorem listing_failure_stops_run (env : ReplEnv) (rc : ReplicationsCollector)
    (sched : List Nat) (renv : RepoEnv)
    (h1 : env.unmarshalPolicies (env.request policiesPath) = none)
    (h2 : (requestAll (projectsPage renv) (renv.pages "/projects") []).2.isSome = true) :
    (rc.Collect env sched).ch =
        [{ desc := rc.replicationUp, valueType := .GaugeValue, value := 0, labelValues := [] }]
      ∧ (rc.Collect env sched).upChannel = [false]
      ∧ (rc.Collect env sched).workers = []
      ∧ (rc.Collect env sched).requests = [policiesPath]
      ∧ (rc.Collect env sched).main = Main.returned
      ∧ collectRepositoriesMetric renv = { ok := false, ch := [], doWorkCalls := [] } := by
  refine ⟨?_, ?_, ?_, ?_, ?_, ?_⟩
  · simp [ReplicationsCollector.Collect, h1, upMetric, MustNewConstMetric]
  · simp [ReplicationsCollector.Collect, h1]
  · simp [ReplicationsCollector.Collect, h1]
  · simp [ReplicationsCollector.Collect, h1]
  · simp [ReplicationsCollector.Collect, h1]
  · unfold collectRepositoriesMetric
    rcases hr : requestAll (projectsPage renv) (renv.pages "/projects") [] with ⟨data, err⟩
    rw [hr] at h2
    cases err with
    | none => simp at h2
    | some e => rfl

/-- Witness of `listing_failure_stops_run`: a listing request answered with an empty body,
and a project listing whose second page fails. -/
theorem listing_failure_stops_run_witness :
    ((rcEx 2).Collect (replEnvEx [policyA] [policiesPath]) [1, 2]).upChannel = [false]
      ∧ ((rcEx 2).Collect (replEnvEx [policyA] [policiesPath]) [1, 2]).workers = []
      ∧ collectRepositoriesMetric repoEnvListingFails = { ok := false, ch := [], doWorkCalls := [] } :=
  ⟨(listing_failure_stops_run (replEnvEx [policyA] [policiesPath]) (rcEx 2) [1, 2]
      repoEnvListingFails (by decide) (by decide)).2.1,
    (listing_failure_stops_run (replEnvEx [policyA] [policiesPath]) (rcEx 2) [1, 2]
      repoEnvListingFails (by decide) (by decide)).2.2.1,
    (listing_failure_stops_run (replEnvEx [policyA] [policiesPath]) (rcEx 2) [1, 2]
      repoEnvListingFails (by decide) (by decide)).2.2.2.2.2⟩

/-- C8: when the listing parses to `l`, the body of every listed item parses and at least one
worker is started, then under every schedule `Collect` returns; `ch` holds the metrics of the
listed items, each item's as often as it is listed and in any order, followed by
`replication_up = 1` as the last metric; `true` is the only value sent on the up channel; and
the requests made are the listing and one per listed item. For the empty listing `ch` holds
the health metric alone and the listing is the only request. -/
theorem collect_all_items_parse (env : ReplEnv) (rc : ReplicationsCollector)
    (sched : List Nat) (l : policiesMetrics)
    (hl : env.unmarshalPolicies (env.request policiesPath) = some l)
    (hp : ∀ p ∈ l, (env.unmarshalPolicy (env.request (executionsPath env p))).isSome = true)
    (ht : 0 < rc.threads) :
    (rc.Collect env sched).main = Main.returned
      ∧ (rc.Collect env sched).upChannel = [true]
      ∧ (∃ body : List Metric,
          (rc.Collect env sched).ch = body ++
            [{ desc := rc.replicationUp, valueType := .GaugeValue, value := 1, labelValues := [] }]
          ∧ body.Perm (l.flatMap (itemMetrics env rc)))
      ∧ (rc.Collect env sched).requests.Perm (policiesPath :: l.map (executionsPath env))
      ∧ (l = [] →
          (rc.Collect env sched).ch =
            [{ desc := rc.replicationUp, valueType := .GaugeValue, value := 1, labelValues := [] }]
          ∧ (rc.Collect env sched).requests = [policiesPath]) := by
  have hstop := collect_stops env rc sched
  have hgood : Good env rc l (rc.Collect env sched) := by
    unfold ReplicationsCollector.Collect
    simp only [hl]
    exact runFrom_invariant env rc (Good env rc l) (fun s a g => good_step env rc l s a g) _
      sched _ (good_start env rc l hp)
  obtain ⟨hmain, hup, ⟨body, hch, hperm⟩, hreq⟩ := good_final env rc l _ hgood ht hstop
  refine ⟨hmain, hup, ⟨body, hch, hperm⟩, hreq, ?_⟩
  intro hnil
  subst hnil
  have hb : body = [] := by simpa using hperm
  have hr : (rc.Collect env sched).requests = [policiesPath] := by simpa using hreq
  rw [hch, hb, hr]
  exact ⟨rfl, rfl⟩

/-- Witness of `collect_all_items_parse`: two workers, the listing `[A, B]`, both bodies
parse. -/
theorem collect_all_items_parse_witness :
    ((rcEx 2).Collect (replEnvEx [policyA, policyB] []) [2, 1, 2]).main = Main.returned
      ∧ ((rcEx 2).Collect (replEnvEx [policyA, policyB] []) [2, 1, 2]).upChannel = [true] :=
  ⟨(collect_all_items_parse (replEnvEx [policyA, policyB] []) (rcEx 2) [2, 1, 2]
      [policyA, policyB] (by decide) (by decide) (by decide)).1,
    (collect_all_items_parse (replEnvEx [policyA, policyB] []) (rcEx 2) [2, 1, 2]
      [policyA, policyB] (by decide) (by decide) (by decide)).2.1⟩

/-- Witness of `policy_metrics_fixed_order`: worker 0 holds policy 1, whose body parses to
one record. -/
theorem policy_metrics_fixed_order_witness :
    (policyMetrics (NewReplicationsCollector "harbor" "" 1) policyA.Name [recordEx]).length = 5 :=
  (policy_metrics_fixed_order (replEnvEx [policyA] []) "harbor" "" 1 policyA [recordEx] 0
    fetchingStateEx (by decide) (by decide)).2.1

/-! ## Scan collector -/

/-- C6: when the cache replay reports a hit, `ScanCollector.Collect` does two things only, the
replay and one send of `true` on the up channel: no upstream request, no caching tee, and no
metric of its own on either sink, so `ch` holds what the replay wrote. -/
theorem scan_cache_hit (env : ScanEnv) (sc : ScanCollector) (h : env.replayHit = true) :
    sc.Collect env = [.replay env.replayed, .upSend true]
      ∧ upSignals (sc.Collect env) = [true]
      ∧ scanRequests (sc.Collect env) = []
      ∧ ScanEvent.openTee ∉ sc.Collect env
      ∧ chSends (sc.Collect env) = []
      ∧ teeSends (sc.Collect env) = []
      ∧ replayWrites (sc.Collect env) = env.replayed := by
  have ht : sc.Collect env = [.replay env.replayed, .upSend true] := by
    simp [ScanCollector.Collect, h]
  rw [ht]
  simp [upSignals, scanRequests, chSends, teeSends, replayWrites]

/-- Witness of `scan_cache_hit` on a warm cache. -/
theorem scan_cache_hit_witness :
    scanEnvHit.replayHit = true
      ∧ upSignals (scanCollectorEx.Collect scanEnvHit) = [true]
      ∧ scanRequests (scanCollectorEx.Collect scanEnvHit) = [] :=
  ⟨rfl, (scan_cache_hit scanEnvHit scanCollectorEx rfl).2.1,
    (scan_cache_hit scanEnvHit scanCollectorEx rfl).2.2.1⟩

/-- On a cache miss the error returned by the upstream request is not read (line 52): the
single up signal is `false` exactly when the returned body fails to parse. -/
theorem scan_up_signal_follows_parse (env : ScanEnv) (sc : ScanCollector)
    (h : env.replayHit = false) :
    upSignals (sc.Collect env) = [(env.unmarshalScan (env.request scanPath).1).isSome] := by
  unfold ScanCollector.Collect
  simp only [h]
  cases env.unmarshalScan (env.request scanPath).1 <;>
    simp [upSignals, scanDeferred]

/-- C7: on a cache miss, for an upstream fetch that returns bytes or an error, and with
`json.Unmarshal` rejecting empty input, whenever the fetch of `/scans/all/metrics` reports an
error the single value sent on the up channel is `false`. -/
theorem scan_fetch_error_degrades_up_signal (env : ScanEnv) (sc : ScanCollector)
    (hmiss : env.replayHit = false)
    (hfetch : bytesOrError (env.request scanPath) = true)
    (hjson : env.unmarshalScan "" = none)
    (herr : (env.request scanPath).2.isSome = true) :
    upSignals (sc.Collect env) = [false] := by
  have hbody : (env.request scanPath).1 = "" := by
    rcases hr : env.request scanPath with ⟨body, err⟩
    rw [hr] at hfetch herr
    cases err with
    | none => simp at herr
    | some e => simpa [bytesOrError] using hfetch
  have hup : upSignals (sc.Collect env)
      = [(env.unmarshalScan (env.request scanPath).1).isSome] := by
    unfold ScanCollector.Collect
    simp only [hmiss]
    cases env.unmarshalScan (env.request scanPath).1 <;>
      simp [upSignals, scanDeferred]
  rw [hup, hbody, hjson]
  rfl

/-- Witness of `scan_fetch_error_degrades_up_signal`: a cold cache and a request that fails
with an empty body. -/
theorem scan_fetch_error_degrades_up_signal_witness :
    scanEnvError.replayHit = false
      ∧ (scanEnvError.request scanPath).2 = some "connection refused"
      ∧ upSignals (scanCollectorEx.Collect scanEnvError) = [false] :=
  ⟨rfl, rfl,
    scan_fetch_error_degrades_up_signal scanEnvError scanCollectorEx rfl (by decide) (by decide)
      (by decide)⟩

/-- C10: on a cache miss, whether the body parses or not, the run is: the replay, the opening
of the tee, the request, then every metric of the run sent to the tee, then the up signal,
then the close of the tee and the wait on it. Nothing goes to `ch` directly, and the tee is
closed once and waited on once. -/
theorem scan_miss_goes_through_tee (env : ScanEnv) (sc : ScanCollector)
    (h : env.replayHit = false) :
    sc.Collect env =
        [.replay env.replayed, .openTee, .request scanPath]
          ++ (teeSends (sc.Collect env)).map ScanEvent.teeSend
          ++ [.upSend (env.unmarshalScan (env.request scanPath).1).isSome, .teeClose, .teeWait]
      ∧ chSends (sc.Collect env) = []
      ∧ (sc.Collect env).count .teeClose = 1
      ∧ (sc.Collect env).count .teeWait = 1
      ∧ (sc.Collect env).count .openTee = 1
      ∧ teeSends (sc.Collect env) =
          match env.unmarshalScan (env.request scanPath).1 with
          | none => []
          | some data =>
            [ MustNewConstMetric (sc.metrics "scans_requester").Desc
                (sc.metrics "scans_requester").Type_ (env.ParseFloat data.Requester) [],
              MustNewConstMetric (sc.metrics "scans_total").Desc
                (sc.metrics "scans_total").Type_ data.Total [],
              MustNewConstMetric (sc.metrics "scans_completed").Desc
                (sc.metrics "scans_completed").Type_ data.Completed [] ] := by
  unfold ScanCollector.Collect
  simp only [h]
  cases env.unmarshalScan (env.request scanPath).1 <;>
    simp [teeSends, chSends, scanDeferred, List.count_cons]

/-- Witness of `scan_miss_goes_through_tee`: a cold cache and a body that parses. -/
theorem scan_miss_goes_through_tee_witness :
    scanEnvBodyAndError.replayHit = false
      ∧ chSends (scanCollectorEx.Collect scanEnvBodyAndError) = []
      ∧ (scanCollectorEx.Collect scanEnvBodyAndError).count .teeClose = 1 :=
  ⟨rfl, (scan_miss_goes_through_tee scanEnvBodyAndError scanCollectorEx rfl).2.1,
    (scan_miss_goes_through_tee scanEnvBodyAndError scanCollectorEx rfl).2.2.1⟩

end Harbor
